import Mathlib

/-!
Verification of the decryption-request lifecycle of the FHEVM age-verifier
repository.

The development shallowly embeds, in Lean, the parts of the repository that the
checked properties are about:

* the on-chain request tracker of `AgeVerifierWithNFT` —
  `retryDecryption` and `getRequestStatus` (contracts source, second document of
  the pack that also holds the image-URI script);
* the client-side retry checker `checkAndRetryDecryption`, the transmission
  retry wrapper `retryWithBackoff`, the read fan-out `safeContractCall` and the
  receipt poller `waitForTransactionWithPublicRpc`
  (frontend `walletCompatibility.ts`, which also carries the retry-mechanism
  and relayer-client modules);
* the Gateway poll loop `RelayerClient.pollDecryption` and the callback waiter
  `waitForCallbackCompletion` of the `useDecryption` hook;
* the credential token contract `AgeCredentialNFT` (`mintCredential`) together
  with the verifier-side `_mintNFTCredential` path.

Addresses, request ids and decoded values are modelled as `Nat` (0 standing for
the zero address / absent entry, as Solidity mappings default to zero).
Timestamps are seconds as `Nat`.  Network behaviour (oracle answers, RPC
results, receipt queries) is modelled as explicit traces passed to the embedded
functions, so that every function stays executable and the theorems quantify
over all possible environments.
-/

/-- Success test for an `Except` value, used to observe the embedded fallible
operations. -/
def exceptIsOk : Except String α → Bool
  | .ok _ => true
  | .error _ => false

/-- Error message of an `Except` value (empty string on success). -/
def exceptErrMsg : Except String α → String
  | .ok _ => ""
  | .error e => e

/-! ## On-chain request tracker (`AgeVerifierWithNFT`)

Solidity source, fields of `struct DecryptionRequest`:
`requester`, `timestamp`, `retryCount` (`uint8`), `processed`.
The three mappings `decryptionRequests`, `requestIdToUser` and
`userToRequestId` are total functions with Solidity zero defaults. -/

structure DecryptionRequest where
  requester : Nat
  timestamp : Nat
  retryCount : Nat
  processed : Bool
deriving DecidableEq, Repr

/-- Zero value of the Solidity mapping `decryptionRequests`. -/
def emptyRequest : DecryptionRequest :=
  { requester := 0, timestamp := 0, retryCount := 0, processed := false }

structure ContractState where
  decryptionRequests : Nat → DecryptionRequest
  requestIdToUser : Nat → Nat
  userToRequestId : Nat → Nat

/-- Contract constant: `uint256 public constant REQUEST_TIMEOUT = 30 minutes`. -/
def REQUEST_TIMEOUT : Nat := 30 * 60

/-- Contract constant: `uint8 public constant MAX_RETRIES = 3`. -/
def MAX_RETRIES : Nat := 3

/-- Embedding of `AgeVerifierWithNFT.retryDecryption`.  The fresh id returned
by `FHE.requestDecryption` is environment-chosen, so it is a parameter
`newRequestId`.  The `require` clauses appear in source order with the source
revert strings; the storage writes mirror the source order
(`request.retryCount++` on the old record, then the new record and the two
index updates). -/
def retryDecryption (s : ContractState) (msgSender blockTimestamp requestId newRequestId : Nat) :
    Except String (Nat × ContractState) :=
  let request := s.decryptionRequests requestId
  let user := s.requestIdToUser requestId
  if user = 0 then .error "Invalid request"
  else if msgSender ≠ user then .error "Only requester can retry"
  else if request.processed then .error "Request already processed"
  else if ¬ request.retryCount < MAX_RETRIES then .error "Max retries exceeded"
  else if ¬ request.timestamp + 5 * 60 < blockTimestamp then .error "Too soon to retry"
  else if ¬ blockTimestamp ≤ request.timestamp + REQUEST_TIMEOUT then .error "Request expired"
  else if s.userToRequestId user = 0 then .error "No encrypted age found"
  else
    let request1 : DecryptionRequest := { request with retryCount := request.retryCount + 1 }
    let newRequest : DecryptionRequest :=
      { requester := user, timestamp := blockTimestamp,
        retryCount := request1.retryCount, processed := false }
    let s1 : ContractState :=
      { decryptionRequests := fun i =>
          if i = newRequestId then newRequest
          else if i = requestId then request1
          else s.decryptionRequests i,
        requestIdToUser := fun i => if i = newRequestId then user else s.requestIdToUser i,
        userToRequestId := fun u => if u = user then newRequestId else s.userToRequestId u }
    .ok (newRequestId, s1)

/-- Return shape of `AgeVerifierWithNFT.getRequestStatus`; the Solidity output
name `exists` is a Lean keyword, rendered `requestExists`. -/
structure RequestStatus where
  requestExists : Bool
  processed : Bool
  retryCount : Nat
  expired : Bool
  timestamp : Nat
deriving DecidableEq, Repr

/-- Embedding of `AgeVerifierWithNFT.getRequestStatus`: a record exists when its
timestamp is positive; a missing record reads as `(false, false, 0, true, 0)`. -/
def getRequestStatus (s : ContractState) (blockTimestamp requestId : Nat) : RequestStatus :=
  let request := s.decryptionRequests requestId
  if 0 < request.timestamp then
    { requestExists := true, processed := request.processed,
      retryCount := request.retryCount,
      expired := decide (request.timestamp + REQUEST_TIMEOUT < blockTimestamp),
      timestamp := request.timestamp }
  else
    { requestExists := false, processed := false, retryCount := 0,
      expired := true, timestamp := 0 }

/-! ## Client-side retry checker (`checkAndRetryDecryption`)

The TypeScript function reads `userToRequestId`, then `getRequestStatus`, and
invokes the contract `retryDecryption` exactly when
`status.expired && status.retryCount < 3`.  Its outcomes: `null` when there is
no pending request, the request is processed, or the surrounding `try` caught a
failure (in particular a reverted transaction); the new id after a successful
retry; otherwise the old id unchanged. -/

inductive RetryCheckOutcome where
  | noPending
  | alreadyProcessed
  | retried (newRequestId : Nat)
  | notEligible (requestId : Nat)
  | txFailed
deriving DecidableEq, Repr

/-- Embedding of `checkAndRetryDecryption` against the embedded contract.
`newRequestId` is the fresh id the ledger would hand to a successful retry. -/
def checkAndRetryDecryption (s : ContractState) (userAddress blockTimestamp newRequestId : Nat) :
    RetryCheckOutcome × ContractState :=
  let requestId := s.userToRequestId userAddress
  if requestId = 0 then (.noPending, s)
  else
    let status := getRequestStatus s blockTimestamp requestId
    if status.processed then (.alreadyProcessed, s)
    else if status.expired && decide (status.retryCount < 3) then
      match retryDecryption s userAddress blockTimestamp requestId newRequestId with
      | .ok (nid, s1) => (.retried nid, s1)
      | .error _ => (.txFailed, s)
    else (.notEligible requestId, s)

/-- Observation of a retry outcome: the retry count recorded for the successor
request, when the retry succeeded. -/
def retryNewCount (s : ContractState) (msgSender blockTimestamp requestId newRequestId : Nat) :
    Option Nat :=
  match retryDecryption s msgSender blockTimestamp requestId newRequestId with
  | .ok (nid, s1) => some ((s1.decryptionRequests nid).retryCount)
  | .error _ => none

/-- A lineage of retries: starting from request id `r`, perform the listed
retry steps (each a block time and a fresh id), always as the recorded
requester, following the chain of new ids.  `none` when some step reverts. -/
def retryChain (s : ContractState) (r : Nat) : List (Nat × Nat) → Option (Nat × ContractState)
  | [] => some (r, s)
  | (t, nid) :: rest =>
    match retryDecryption s (s.requestIdToUser r) t r nid with
    | .ok (r1, s1) => retryChain s1 r1 rest
    | .error _ => none

/-- Retry count at the end of a lineage, when every step succeeded. -/
def retryChainCount (s : ContractState) (r : Nat) (steps : List (Nat × Nat)) : Option Nat :=
  (retryChain s r steps).map (fun p => (p.2.decryptionRequests p.1).retryCount)

/-- A concrete contract state: user 1 holds the pending request 10, created at
time 100, unprocessed, no retries yet. -/
def sampleState : ContractState :=
  { decryptionRequests := fun i =>
      if i = 10 then { requester := 1, timestamp := 100, retryCount := 0, processed := false }
      else emptyRequest,
    requestIdToUser := fun i => if i = 10 then 1 else 0,
    userToRequestId := fun u => if u = 1 then 10 else 0 }

/-- The sample state with the retry budget already exhausted. -/
def exhaustedState : ContractState :=
  { decryptionRequests := fun i =>
      if i = 10 then { requester := 1, timestamp := 100, retryCount := 3, processed := false }
      else emptyRequest,
    requestIdToUser := fun i => if i = 10 then 1 else 0,
    userToRequestId := fun u => if u = 1 then 10 else 0 }


/-! ## Gateway poll loop (`RelayerClient.pollDecryption`)

One oracle answer per attempt (attempts are numbered from 1 as in the source):
a 2xx response with a payload, a non-2xx HTTP status (404 meaning "not ready"),
or a thrown network error.  Non-ok answers of any kind continue the loop. -/

inductive PollResponse where
  | ok (payload : Nat)
  | status (code : Nat)
  | networkError (msg : String)
deriving DecidableEq, Repr

/-- Whether an oracle answer is a 2xx success (`response.ok` in the source). -/
def isOkResponse : PollResponse → Bool
  | .ok _ => true
  | _ => false

/-- Timeout message thrown by `pollDecryption`, built exactly as in the source
from the attempt bound and the total time
(translation note: the source computes the seconds with JS number division;
the embedding uses truncating `Nat` division, which agrees on the default
configuration). -/
def gatewayTimeoutMsg (maxAttempts interval : Nat) : String :=
  "Gateway 解密超时（" ++ toString maxAttempts ++ " 次，共 "
    ++ toString ((maxAttempts * interval) / 1000) ++ "秒）"

/-- Poll loop body: first attempt number and remaining budget.  Returns the
successful payload with the attempt that obtained it (if any) and the number of
oracle requests issued. -/
def pollDecryptionAux (responses : Nat → PollResponse) :
    Nat → Nat → Option (Nat × Nat) × Nat
  | _, 0 => (none, 0)
  | attempt, r + 1 =>
    match responses attempt with
    | .ok p => (some (p, attempt), 1)
    | _ =>
      let rest := pollDecryptionAux responses (attempt + 1) r
      (rest.1, rest.2 + 1)

/-- Embedding of `RelayerClient.pollDecryption`: on success the payload and the
attempt count used, on exhaustion the timeout error; paired with the number of
oracle requests issued. -/
def pollDecryption (responses : Nat → PollResponse) (maxAttempts interval : Nat) :
    Except String (Nat × Nat) × Nat :=
  match pollDecryptionAux responses 1 maxAttempts with
  | (some (p, att), n) => (.ok (p, att), n)
  | (none, n) => (.error (gatewayTimeoutMsg maxAttempts interval), n)

/-! ## Callback waiter (`waitForCallbackCompletion` of the `useDecryption` hook)

Each loop iteration reads, inside one `try` block, the subject's `isVerified`
flag, the subject's `userToRequestId`, and (when the id is nonzero) the
request's `processed` flag.  A throw anywhere in the block is caught and the
loop continues.  `none` models an iteration whose reads throw. -/

structure ChainView where
  isVerified : Bool
  requestId : Nat
  processed : Bool
deriving DecidableEq, Repr

/-- Loop body of `waitForCallbackCompletion` (`MAX_WAIT` iterations, one chain
view per iteration).  The second return test translates the source line
`if (isVerified !== undefined)`: the awaited contract call just produced the
boolean `v.isVerified`, so the compared JS value is `some v.isVerified`, never
`undefined`. -/
def waitForCallbackCompletionAux (reads : Nat → Option ChainView) :
    Nat → Nat → Except String Unit
  | _, 0 => .error "等待回调超时 - 请检查合约状态或重试"
  | i, r + 1 =>
    match reads i with
    | some v =>
      if v.requestId ≠ 0 && v.processed then .ok ()
      else if (some v.isVerified : Option Bool) ≠ none then .ok ()
      else waitForCallbackCompletionAux reads (i + 1) r
    | none => waitForCallbackCompletionAux reads (i + 1) r

/-- Embedding of `waitForCallbackCompletion`: `MAX_WAIT = 120` iterations at a
fixed `INTERVAL = 2000` ms. -/
def waitForCallbackCompletion (reads : Nat → Option ChainView) : Except String Unit :=
  waitForCallbackCompletionAux reads 0 120

/-! ## Read fan-out (`safeContractCall`)

The source iterates the fixed three-element `FALLBACK_RPCS` list; the outcome
of attempting one endpoint (RPC call plus result decoding, both inside the
`try`) is an `Except`, and the behaviours of the configured endpoints, in
order, form the input list. -/

/-- Embedding of `safeContractCall`: first endpoint to succeed wins; when every
endpoint fails the fixed message is thrown (the individual errors are only
logged by the source). -/
def safeContractCall : List (Except String Nat) → Except String Nat
  | [] => .error "所有 RPC 调用均失败"
  | r :: rest =>
    match r with
    | .ok v => .ok v
    | .error _ => safeContractCall rest

/-! ## Receipt poller (`waitForTransactionWithPublicRpc`)

The function first probes the configured endpoints with `getBlockNumber` and
keeps the first live one (throwing when none is live), then queries that
endpoint for the transaction receipt up to `maxAttempts` times, sleeping 2000
ms after every unsuccessful iteration. -/

inductive ReceiptResult where
  | throws (msg : String)
  | nullReceipt
  | receipt (blockNumber : Option Nat) (status : Nat)
deriving DecidableEq, Repr

/-- The source test `if (receipt && receipt.blockNumber)`: a receipt whose
`blockNumber` is defined and nonzero (JS truthiness). -/
def receiptReady : ReceiptResult → Bool
  | .receipt (some (_ + 1)) _ => true
  | _ => false

/-- Timeout message of the receipt poller, with the minutes computed as in the
source (JS number division there, truncating `Nat` division here; equal on the
default `maxAttempts = 60`). -/
def confirmationTimeoutMsg (maxAttempts : Nat) : String :=
  "交易确认超时（" ++ toString maxAttempts ++ " 次，共 "
    ++ toString ((maxAttempts * 2) / 60) ++ "分钟）"

/-- Block number and status of a ready receipt (zero placeholders otherwise;
only read under `receiptReady`). -/
def receiptValue : ReceiptResult → Nat × Nat
  | .receipt (some b) st => (b, st)
  | _ => (0, 0)

/-- Receipt poll loop: iteration index and remaining budget.  Returns the
confirmed receipt (block number and status, with the iteration that saw it),
the number of receipt queries, and the milliseconds slept. -/
def waitTxAux (queries : Nat → ReceiptResult) :
    Nat → Nat → Option ((Nat × Nat) × Nat) × Nat × Nat
  | _, 0 => (none, 0, 0)
  | i, r + 1 =>
    if receiptReady (queries i) then (some (receiptValue (queries i), i), 1, 0)
    else
      let rest := waitTxAux queries (i + 1) r
      (rest.1, rest.2.1 + 1, rest.2.2 + 2000)

/-- Embedding of `waitForTransactionWithPublicRpc`: endpoint liveness probes,
then the bounded receipt poll.  Returns the result together with the number of
receipt queries made and the total sleep in milliseconds. -/
def waitForTransactionWithPublicRpc (probes : List Bool) (queries : Nat → ReceiptResult)
    (maxAttempts : Nat) : Except String (Nat × Nat) × Nat × Nat :=
  match probes.findIdx? (fun b => b) with
  | none => (.error "所有公共 RPC 均不可用", 0, 0)
  | some _ =>
    match waitTxAux queries 0 maxAttempts with
    | (some (receipt, _), n, sl) => (.ok receipt, n, sl)
    | (none, n, sl) => (.error (confirmationTimeoutMsg maxAttempts), n, sl)

/-- The source defaults `maxAttempts` to 60. -/
def waitForTransactionWithPublicRpcDefault (probes : List Bool)
    (queries : Nat → ReceiptResult) : Except String (Nat × Nat) × Nat × Nat :=
  waitForTransactionWithPublicRpc probes queries 60

/-! ## Transmission retry wrapper (`retryWithBackoff`)

The wrapped operation's behaviour on its successive invocations is the trace
`calls` (0-based attempt index, as in the source loop
`for (attempt = 0; attempt <= maxRetries; attempt++)`). -/

/-- Backoff delays `retryDelay * 2 ^ attempt` for `count` consecutive failed
attempts starting at `attempt`. -/
def backoffDelays (retryDelay : Nat) : Nat → Nat → List Nat
  | _, 0 => []
  | attempt, k + 1 => retryDelay * 2 ^ attempt :: backoffDelays retryDelay (attempt + 1) k

/-- Loop body of `retryWithBackoff`: current attempt index, remaining loop
iterations (the loop runs for attempts `0..maxRetries` inclusive), and the
`lastError` variable.  Returns the result, the number of calls made to the
wrapped operation, and the list of sleep delays taken. -/
def retryWithBackoffAux (calls : Nat → Except String Nat) (maxRetries retryDelay : Nat) :
    Nat → Nat → String → Except String Nat × Nat × List Nat
  | _, 0, lastError => (.error lastError, 0, [])
  | attempt, r + 1, _ =>
    match calls attempt with
    | .ok v => (.ok v, 1, [])
    | .error e =>
      if attempt < maxRetries then
        let rest := retryWithBackoffAux calls maxRetries retryDelay (attempt + 1) r e
        (rest.1, rest.2.1 + 1, retryDelay * 2 ^ attempt :: rest.2.2)
      else (.error e, 1, [])

/-- Embedding of `retryWithBackoff` (option defaults in the source:
`maxRetries = 3`, `retryDelay = 5000`). -/
def retryWithBackoff (calls : Nat → Except String Nat) (maxRetries retryDelay : Nat) :
    Except String Nat × Nat × List Nat :=
  retryWithBackoffAux calls maxRetries retryDelay 0 (maxRetries + 1) ""

/-! ## Credential token (`AgeCredentialNFT`) and the verifier minting path -/

structure NFTState where
  tokenIdCounter : Nat
  addressToTokenId : Nat → Nat
  ownerOf : Nat → Nat
  authorizedMinters : Nat → Bool
  encryptedAges : Nat → Nat
  mintTimestamp : Nat → Nat

/-- Embedding of `AgeCredentialNFT.hasCredential`. -/
def hasCredential (s : NFTState) (account : Nat) : Bool :=
  decide (s.addressToTokenId account ≠ 0)

/-- Embedding of `AgeCredentialNFT.mintCredential`, including the ERC721
`_safeMint` reverts (zero receiver, token already minted) between the two
`require` clauses and the state writes.  The Solidity parameter `to` is a Lean
token, rendered `toAddr`. -/
def mintCredential (s : NFTState) (msgSender toAddr encryptedAge blockTimestamp : Nat) :
    Except String (Nat × NFTState) :=
  if s.authorizedMinters msgSender = false then .error "Not authorized"
  else if s.addressToTokenId toAddr ≠ 0 then .error "Already has credential"
  else
    let tokenId := s.tokenIdCounter
    if toAddr = 0 then .error "ERC721InvalidReceiver"
    else if s.ownerOf tokenId ≠ 0 then .error "ERC721InvalidSender"
    else
      .ok (tokenId,
        { tokenIdCounter := tokenId + 1,
          addressToTokenId := fun a => if a = toAddr then tokenId else s.addressToTokenId a,
          ownerOf := fun i => if i = tokenId then toAddr else s.ownerOf i,
          authorizedMinters := s.authorizedMinters,
          encryptedAges := fun i => if i = tokenId then encryptedAge else s.encryptedAges i,
          mintTimestamp := fun i => if i = tokenId then blockTimestamp else s.mintTimestamp i })

/-- Embedding of `AgeVerifierWithNFT._mintNFTCredential`: skip (no state
change, no token) when the user already holds a credential, otherwise call
`mintCredential` as the verifier contract (`verifierAddr`), with the stored
encrypted age.  A revert of the external call propagates. -/
def mintNFTCredential (nft : NFTState) (verifierAddr : Nat) (userEncryptedAges : Nat → Nat)
    (user blockTimestamp : Nat) : Except String (NFTState × Option Nat) :=
  if hasCredential nft user then .ok (nft, none)
  else
    match mintCredential nft verifierAddr user (userEncryptedAges user) blockTimestamp with
    | .ok (tokenId, nft1) => .ok (nft1, some tokenId)
    | .error e => .error e

/-- A concrete token state as left by the constructor (`_tokenIdCounter = 1`)
plus one `authorizeMinter(2)` call: no tokens yet, verifier address 2
authorized. -/
def freshNFTState : NFTState :=
  { tokenIdCounter := 1,
    addressToTokenId := fun _ => 0,
    ownerOf := fun _ => 0,
    authorizedMinters := fun a => a = 2,
    encryptedAges := fun _ => 0,
    mintTimestamp := fun _ => 0 }

/-- The token state after `mintCredential(1, age)` succeeded from
`freshNFTState`: address 1 holds token 1, the counter moved to 2. -/
def mintedNFTState : NFTState :=
  { tokenIdCounter := 2,
    addressToTokenId := fun a => if a = 1 then 1 else 0,
    ownerOf := fun i => if i = 1 then 1 else 0,
    authorizedMinters := fun a => a = 2,
    encryptedAges := fun i => if i = 1 then 77 else 0,
    mintTimestamp := fun i => if i = 1 then 1000 else 0 }


/-! ## Helper lemmas about the embedded operations -/

/-- A successful retry records, for the successor id it returns, a retry count
one above the predecessor record's count. -/
theorem retryDecryption_ok_count {s : ContractState} {ms t r nid : Nat} {p : Nat × ContractState}
    (h : retryDecryption s ms t r nid = .ok p) :
    (p.2.decryptionRequests p.1).retryCount = (s.decryptionRequests r).retryCount + 1 := by
  simp only [retryDecryption] at h
  split_ifs at h
  injection h with h1
  subst h1
  simp

/-- A retry can only succeed while the predecessor request is still inside its
`REQUEST_TIMEOUT` window. -/
theorem retryDecryption_ok_not_expired {s : ContractState} {ms t r nid : Nat}
    {p : Nat × ContractState} (h : retryDecryption s ms t r nid = .ok p) :
    t ≤ (s.decryptionRequests r).timestamp + REQUEST_TIMEOUT := by
  simp only [retryDecryption] at h
  split_ifs at h with h1 h2 h3 h4 h5 h6 h7
  exact h6

/-- Whenever the request indexed for the user actually exists on chain, the
client-side checker can never reach the `retried` outcome: its eligibility test
fires only on expired requests, and the contract reverts exactly on those. -/
theorem retried_outcome_unreachable (s : ContractState) (user t nid n : Nat)
    (hex : 0 < (s.decryptionRequests (s.userToRequestId user)).timestamp) :
    (checkAndRetryDecryption s user t nid).1 ≠ RetryCheckOutcome.retried n := by
  simp only [checkAndRetryDecryption]
  by_cases h0 : s.userToRequestId user = 0
  · simp [h0]
  · rw [if_neg h0]
    set rid := s.userToRequestId user with hrid
    have hstat : getRequestStatus s t rid =
        { requestExists := true, processed := (s.decryptionRequests rid).processed,
          retryCount := (s.decryptionRequests rid).retryCount,
          expired := decide ((s.decryptionRequests rid).timestamp + REQUEST_TIMEOUT < t),
          timestamp := (s.decryptionRequests rid).timestamp } := by
      simp only [getRequestStatus]
      rw [if_pos hex]
    rw [hstat]
    by_cases hp : (s.decryptionRequests rid).processed
    · simp [hp]
    · rw [if_neg (by simpa using hp)]
      by_cases helig :
          (decide ((s.decryptionRequests rid).timestamp + REQUEST_TIMEOUT < t)
            && decide ((s.decryptionRequests rid).retryCount < 3)) = true
      · rw [if_pos helig]
        have hexp : (s.decryptionRequests rid).timestamp + REQUEST_TIMEOUT < t := by
          have := (Bool.and_eq_true _ _).mp helig
          exact of_decide_eq_true this.1
        cases hcall : retryDecryption s user t rid nid with
        | ok p =>
          have := retryDecryption_ok_not_expired hcall
          omega
        | error e => simp
      · rw [if_neg helig]
        simp

/-! ## Claim theorems -/

/-- C1: the claimed behaviour — a retry on an existing, unprocessed request
that is past its 30-minute expiry window, with retries left and the 5-minute
cool-down elapsed, succeeds — is exactly what the code refuses.  At the
Scenario C input (request created at time 100, now 40 minutes later) the client
checker deems the request eligible (exists, unprocessed, expired,
`retryCount = 0 < 3`), invokes the contract, and the contract reverts with
"Request expired" because `retryDecryption` requires
`block.timestamp <= timestamp + REQUEST_TIMEOUT`; the checker therefore ends in
its caught-failure outcome instead of returning a new request id. -/
theorem c1_expired_retry_reverts :
    getRequestStatus sampleState 2500 10 =
      { requestExists := true, processed := false, retryCount := 0,
        expired := true, timestamp := 100 } ∧
    retryDecryption sampleState 1 2500 10 11 = .error "Request expired" ∧
    (checkAndRetryDecryption sampleState 1 2500 11).1 = .txFailed :=
  ⟨rfl, rfl, rfl⟩

/-- C3: at an input where neither completion flag is set — the subject is
unverified (`isVerified = false`) and the pending request 5 is unprocessed, with
every chain read succeeding — the callback waiter still returns normally on its
first iteration, because the source line `if (isVerified !== undefined)`
compares the freshly awaited boolean against `undefined` and is therefore
always true after a successful read.  The timeout error is reachable only when
every one of the 120 iterations' reads throw. -/
theorem c3_callback_waiter_completes_without_completion :
    waitForCallbackCompletion
        (fun _ => some { isVerified := false, requestId := 5, processed := false }) = .ok () ∧
    (∀ i : Nat, ∃ v : ChainView,
        (fun _ => some { isVerified := false, requestId := 5, processed := false } :
          Nat → Option ChainView) i = some v ∧ v.isVerified = false ∧ v.processed = false) ∧
    waitForCallbackCompletion (fun _ => none) = .error "等待回调超时 - 请检查合约状态或重试" := by
  refine ⟨rfl, fun i => ⟨_, rfl, rfl, rfl⟩, rfl⟩

/-- C4: each successful retry records, for the successor request, a retry count
equal to the predecessor record's count plus one; consequently, along any
lineage of successful retries the count grows by exactly the number of retry
events — it never decreases and never resets. -/
theorem c4_retry_count_monotone :
    (∀ (s : ContractState) (ms t r nid : Nat),
        exceptIsOk (retryDecryption s ms t r nid) = true →
        retryNewCount s ms t r nid = some ((s.decryptionRequests r).retryCount + 1)) ∧
    (∀ (s : ContractState) (r : Nat) (steps : List (Nat × Nat)),
        (retryChain s r steps).isSome = true →
        retryChainCount s r steps = some ((s.decryptionRequests r).retryCount + steps.length)) := by
  constructor
  · intro s ms t r nid h
    cases hc : retryDecryption s ms t r nid with
    | ok p =>
      have := retryDecryption_ok_count hc
      simp only [retryNewCount, hc]
      obtain ⟨nid1, s1⟩ := p
      simpa using this
    | error e => rw [hc] at h; simp [exceptIsOk] at h
  · intro s r steps
    induction steps generalizing s r with
    | nil => intro _; simp [retryChainCount, retryChain]
    | cons step rest ih =>
      intro h
      obtain ⟨t, nid⟩ := step
      cases hc : retryDecryption s (s.requestIdToUser r) t r nid with
      | ok p =>
        obtain ⟨r1, s1⟩ := p
        have hcount := retryDecryption_ok_count hc
        have hchain : retryChain s r ((t, nid) :: rest) = retryChain s1 r1 rest := by
          simp [retryChain, hc]
        have hsome : (retryChain s1 r1 rest).isSome = true := by
          rw [hchain] at h; exact h
        have := ih s1 r1 hsome
        simp only [retryChainCount, hchain]
        simp only [retryChainCount] at this
        rw [this]
        simp at hcount
        rw [hcount]
        simp
        omega
      | error e =>
        rw [show retryChain s r ((t, nid) :: rest) = none by simp [retryChain, hc]] at h
        simp at h

/-- Witness for C4 at the sample state: one retry takes the count from 0 to 1,
and a two-step lineage reaches exactly 2. -/
theorem c4_witness :
    retryNewCount sampleState 1 500 10 11 = some 1 ∧
    retryChainCount sampleState 10 [(500, 11), (900, 12)] = some 2 :=
  ⟨c4_retry_count_monotone.1 sampleState 1 500 10 11 rfl,
   c4_retry_count_monotone.2 sampleState 10 [(500, 11), (900, 12)] rfl⟩

/-- C5: the retry operation never goes through once a request's retry count has
reached `MAX_RETRIES = 3` — the contract call cannot succeed on such a request —
and the client checker, seeing an existing unprocessed request with
`retryCount >= 3`, takes its terminal no-retry branch, returning the old id
unchanged without ever invoking the contract. -/
theorem c5_retry_bound :
    (∀ (s : ContractState) (ms t r nid : Nat),
        MAX_RETRIES ≤ (s.decryptionRequests r).retryCount →
        exceptIsOk (retryDecryption s ms t r nid) = false) ∧
    (∀ (s : ContractState) (user t nid : Nat),
        s.userToRequestId user ≠ 0 →
        (getRequestStatus s t (s.userToRequestId user)).processed = false →
        3 ≤ (getRequestStatus s t (s.userToRequestId user)).retryCount →
        checkAndRetryDecryption s user t nid =
          (.notEligible (s.userToRequestId user), s)) := by
  constructor
  · intro s ms t r nid hge
    simp only [retryDecryption]
    split_ifs with h1 h2 h3 h4 h5 h6 h7
    all_goals try rfl
    exfalso
    simp only [MAX_RETRIES] at h4 hge
    omega
  · intro s user t nid h0 hproc hrc
    simp only [checkAndRetryDecryption]
    rw [if_neg h0]
    rw [if_neg (by simp [hproc])]
    rw [if_neg (by
      intro hcontra
      have := (Bool.and_eq_true _ _).mp hcontra
      have hlt := of_decide_eq_true this.2
      omega)]

/-- Witness for C5 at the exhausted sample state (`retryCount = 3`): the
contract call fails and the checker returns the old id without retrying. -/
theorem c5_witness :
    exceptIsOk (retryDecryption exhaustedState 1 2500 10 11) = false ∧
    checkAndRetryDecryption exhaustedState 1 2500 11 = (.notEligible 10, exhaustedState) :=
  ⟨c5_retry_bound.1 exhaustedState 1 2500 10 11 (by decide),
   c5_retry_bound.2 exhaustedState 1 2500 11 (by decide) (by decide) (by decide)⟩

/-- When no attempt in the window `[attempt, attempt + remaining)` gets a 2xx
answer, the poll loop consumes its whole budget and issues exactly `remaining`
oracle requests. -/
theorem pollDecryptionAux_allFail (responses : Nat → PollResponse) :
    ∀ (remaining attempt : Nat),
      (∀ a, attempt ≤ a → a < attempt + remaining → isOkResponse (responses a) = false) →
      pollDecryptionAux responses attempt remaining = (none, remaining) := by
  intro remaining
  induction remaining with
  | zero => intro attempt _; rfl
  | succ r ih =>
    intro attempt h
    have hrec := ih (attempt + 1) (fun a h1 h2 => h a (by omega) (by omega))
    cases hr : responses attempt with
    | ok p =>
      have := h attempt le_rfl (by omega)
      rw [hr] at this
      simp [isOkResponse] at this
    | status c => simp [pollDecryptionAux, hr, hrec]
    | networkError m => simp [pollDecryptionAux, hr, hrec]

/-- C2: when every attempt up to the budget fails to get a 2xx answer — with
404, any other status, or a thrown network error, in any mixture — the poll
loop makes exactly `maxAttempts` oracle requests and then fails with the
timeout error built from that attempt count; no intermediate failure aborts it
early. -/
theorem c2_poll_exhausts_exactly (responses : Nat → PollResponse)
    (maxAttempts interval : Nat) (hm : 1 ≤ maxAttempts)
    (hfail : ∀ a, a ≤ maxAttempts → 1 ≤ a → isOkResponse (responses a) = false) :
    pollDecryption responses maxAttempts interval =
      (.error (gatewayTimeoutMsg maxAttempts interval), maxAttempts) := by
  have haux := pollDecryptionAux_allFail responses maxAttempts 1
    (fun a h1 h2 => hfail a (by omega) h1)
  simp [pollDecryption, haux]

/-- Witness for C2: a 500 status, then a network error, then a 404 — three
attempts, then the timeout error carrying the attempt count 3 (property P5's
configuration `maxAttempts = 3`, `intervalMs = 10`). -/
theorem c2_witness :
    pollDecryption
        (fun a => if a = 1 then .status 500
          else if a = 2 then .networkError "ECONNRESET" else .status 404) 3 10 =
      (.error (gatewayTimeoutMsg 3 10), 3) :=
  c2_poll_exhausts_exactly _ 3 10 (by decide)
    (by intro a h1 h2; interval_cases a <;> rfl)

/-- C6: if the endpoints before position k all fail and endpoint k decodes
successfully, the read returns endpoint k's decoded value; none of the earlier
failures becomes the final outcome. -/
theorem c6_endpoint_fallback (pre post : List (Except String Nat)) (v : Nat)
    (hpre : ∀ e ∈ pre, exceptIsOk e = false) :
    safeContractCall (pre ++ Except.ok v :: post) = Except.ok v := by
  induction pre with
  | nil => rfl
  | cons head tail ih =>
    have hh := hpre head (by simp)
    cases head with
    | ok w => simp [exceptIsOk] at hh
    | error e =>
      simp only [List.cons_append, safeContractCall]
      exact ih (fun x hx => hpre x (by simp [hx]))

/-- Witness for C6: the first two endpoints fail, the third succeeds with 42,
and 42 is returned. -/
theorem c6_witness :
    safeContractCall [Except.error "timeout", Except.error "rate limited", Except.ok 42] =
      Except.ok 42 :=
  c6_endpoint_fallback [Except.error "timeout", Except.error "rate limited"] [] 42 (by decide)

/-- C7 counterexample: two runs in which all three endpoints throw different
underlying errors produce the very same fixed rejection, so the rejection
cannot be listing the three underlying endpoint errors — it is the bare
constant message the source throws (the individual errors are only logged). -/
theorem c7_counterexample :
    safeContractCall [Except.error "E1", Except.error "E2", Except.error "E3"] =
      Except.error "所有 RPC 调用均失败" ∧
    safeContractCall [Except.error "X1", Except.error "X2", Except.error "X3"] =
      Except.error "所有 RPC 调用均失败" ∧
    ("E1" : String) ≠ "X1" :=
  ⟨rfl, rfl, by decide⟩

/-- C7 amended: when every configured endpoint fails, the read rejects with the
fixed all-endpoints-failed message (the underlying errors are not part of the
rejection). -/
theorem c7_all_endpoints_fail (results : List (Except String Nat))
    (hall : ∀ e ∈ results, exceptIsOk e = false) :
    safeContractCall results = Except.error "所有 RPC 调用均失败" := by
  induction results with
  | nil => rfl
  | cons head tail ih =>
    have hh := hall head (by simp)
    cases head with
    | ok w => simp [exceptIsOk] at hh
    | error e =>
      simp only [safeContractCall]
      exact ih (fun x hx => hall x (by simp [hx]))

/-- Witness for C7 at three distinct throwing endpoints. -/
theorem c7_witness :
    safeContractCall
        [Except.error "connection refused", Except.error "HTTP 429", Except.error "ENOTFOUND"] =
      Except.error "所有 RPC 调用均失败" :=
  c7_all_endpoints_fail _ (by decide)

/-- When no receipt query in the window `[i, i + remaining)` returns a receipt
with a block number, the receipt loop consumes its whole budget, issuing one
query and one 2000 ms sleep per iteration. -/
theorem waitTxAux_allFail (queries : Nat → ReceiptResult) :
    ∀ (remaining i : Nat),
      (∀ a, i ≤ a → a < i + remaining → receiptReady (queries a) = false) →
      waitTxAux queries i remaining = (none, remaining, 2000 * remaining) := by
  intro remaining
  induction remaining with
  | zero => intro i _; rfl
  | succ r ih =>
    intro i h
    have hrec := ih (i + 1) (fun a h1 h2 => h a (by omega) (by omega))
    have hi := h i le_rfl (by omega)
    rw [Nat.mul_succ]
    simp [waitTxAux, hi, hrec]

/-- C8: with at least one live public read endpoint and no receipt carrying a
block number appearing within the attempt budget, the finality wait performs
exactly `maxAttempts` receipt queries at the fixed 2-second interval and then
fails with the confirmation-timeout error built from the attempt bound; the
defaulted entry point uses `maxAttempts = 60`.  The failure is returned to the
caller — the embedded function performs no resubmission. -/
theorem c8_confirmation_timeout (probes : List Bool) (queries : Nat → ReceiptResult)
    (maxAttempts : Nat)
    (hlive : (probes.findIdx? (fun b => b)).isSome = true)
    (hq : ∀ a, a < maxAttempts → receiptReady (queries a) = false) :
    waitForTransactionWithPublicRpc probes queries maxAttempts =
      (.error (confirmationTimeoutMsg maxAttempts), maxAttempts, 2000 * maxAttempts) ∧
    waitForTransactionWithPublicRpcDefault probes queries =
      waitForTransactionWithPublicRpc probes queries 60 := by
  refine ⟨?_, rfl⟩
  obtain ⟨j, hj⟩ := Option.isSome_iff_exists.mp hlive
  have haux := waitTxAux_allFail queries maxAttempts 0 (fun a h1 h2 => hq a (by omega))
  simp [waitForTransactionWithPublicRpc, hj, haux]

/-- Witness for C8: all three configured endpoints are live, every receipt
query returns null, and the default 60-attempt poll times out after 60 queries
and 120000 ms of fixed-interval sleeping. -/
theorem c8_witness :
    waitForTransactionWithPublicRpc [true, true, true] (fun _ => .nullReceipt) 60 =
      (.error (confirmationTimeoutMsg 60), 60, 120000) :=
  (c8_confirmation_timeout [true, true, true] (fun _ => .nullReceipt) 60 (by decide)
    (fun a _ => rfl)).1

/-- C9 counterexample: with the source defaults (`maxRetries = 3`,
`retryDelay = 5000`) and an operation that fails on every call, the wrapper
invokes the operation 4 times — the initial call plus 3 retries — not the 3
attempts the claim states; the delays double from 5000 ms and the last error is
rethrown. -/
theorem c9_counterexample :
    retryWithBackoff (fun i => Except.error (toString i)) 3 5000 =
      (.error "3", 4, [5000, 10000, 20000]) ∧
    (4 : Nat) ≠ 3 :=
  ⟨rfl, by decide⟩

/-- C9 amended: on persistent failure the wrapper makes `maxRetries + 1` calls
(default options give 4: one initial call plus up to 3 retries), sleeping
`retryDelay * 2 ^ attempt` before each re-attempt — 5000 ms doubling after
every failed attempt under the defaults — and finally rethrows the last error. -/
theorem retryWithBackoffAux_error_step (calls : Nat → Except String Nat)
    (maxRetries retryDelay attempt r : Nat) (lastError e : String)
    (hc : calls attempt = .error e) (hlt : attempt < maxRetries) :
    retryWithBackoffAux calls maxRetries retryDelay attempt (r + 1) lastError =
      ((retryWithBackoffAux calls maxRetries retryDelay (attempt + 1) r e).1,
       (retryWithBackoffAux calls maxRetries retryDelay (attempt + 1) r e).2.1 + 1,
       retryDelay * 2 ^ attempt ::
         (retryWithBackoffAux calls maxRetries retryDelay (attempt + 1) r e).2.2) := by
  conv_lhs => rw [retryWithBackoffAux]
  simp [hc, hlt]

theorem c9_backoff_retries (calls : Nat → Except String Nat) (maxRetries retryDelay : Nat)
    (hfail : ∀ a, a ≤ maxRetries → exceptIsOk (calls a) = false) :
    retryWithBackoff calls maxRetries retryDelay =
      (.error (exceptErrMsg (calls maxRetries)), maxRetries + 1,
        backoffDelays retryDelay 0 maxRetries) := by
  have aux : ∀ (remaining attempt : Nat) (lastError : String),
      attempt + remaining = maxRetries + 1 → 1 ≤ remaining →
      retryWithBackoffAux calls maxRetries retryDelay attempt remaining lastError =
        (.error (exceptErrMsg (calls maxRetries)), remaining,
          backoffDelays retryDelay attempt (remaining - 1)) := by
    intro remaining
    induction remaining with
    | zero => intro attempt lastError hinv hr; omega
    | succ r ih =>
      intro attempt lastError hinv _
      have hfa := hfail attempt (by omega)
      cases hc : calls attempt with
      | ok v => rw [hc] at hfa; simp [exceptIsOk] at hfa
      | error e =>
        by_cases hlt : attempt < maxRetries
        · obtain ⟨r1, rfl⟩ : ∃ r1, r = r1 + 1 := ⟨r - 1, by omega⟩
          have hrec := ih (attempt + 1) e (by omega) (by omega)
          rw [retryWithBackoffAux_error_step calls maxRetries retryDelay attempt (r1 + 1)
            lastError e hc hlt, hrec]
          simp [backoffDelays]
        · have hat : attempt = maxRetries := by omega
          have hr0 : r = 0 := by omega
          subst hat hr0
          conv_lhs => rw [retryWithBackoffAux]
          simp [backoffDelays, hc, hlt, exceptErrMsg]
  have := aux (maxRetries + 1) 0 "" (by omega) (by omega)
  simpa [retryWithBackoff] using this

/-- Witness for C9 amended at the defaults: 4 calls, delays 5000, 10000,
20000 ms, the last error surfaced. -/
theorem c9_witness :
    retryWithBackoff (fun _ => Except.error "network down") 3 5000 =
      (.error "network down", 4, [5000, 10000, 20000]) :=
  c9_backoff_retries (fun _ => Except.error "network down") 3 5000 (fun a _ => rfl)

/-- A successful mint hands out the current counter value as the token id and
indexes it for the recipient. -/
theorem mintCredential_ok_shape {s : NFTState} {ms a age t : Nat} {p : Nat × NFTState}
    (h : mintCredential s ms a age t = .ok p) :
    p.1 = s.tokenIdCounter ∧ p.2.addressToTokenId a = s.tokenIdCounter := by
  simp only [mintCredential] at h
  split_ifs at h
  injection h with h1
  subst h1
  constructor
  · rfl
  · simp

/-- C10: at most one credential per address.  The token contract's
`mintCredential` cannot succeed for a recipient already indexed with a token;
the verifier's internal path skips minting (state unchanged, no token) when the
user already holds a credential; and after any outcome of one internal-path
call, a repeated call for the same user mints nothing further. -/
theorem c10_single_credential :
    (∀ (nft : NFTState) (ms a age t : Nat),
        nft.addressToTokenId a ≠ 0 →
        exceptIsOk (mintCredential nft ms a age t) = false) ∧
    (∀ (nft : NFTState) (va : Nat) (ages : Nat → Nat) (user t : Nat),
        hasCredential nft user = true →
        mintNFTCredential nft va ages user t = .ok (nft, none)) ∧
    (∀ (nft : NFTState) (va : Nat) (ages : Nat → Nat) (user t t1 : Nat),
        1 ≤ nft.tokenIdCounter →
        match mintNFTCredential nft va ages user t with
        | .ok p => mintNFTCredential p.1 va ages user t1 = .ok (p.1, none)
        | .error _ => True) := by
  refine ⟨?_, ?_, ?_⟩
  · intro nft ms a age t hne
    simp only [mintCredential]
    split_ifs
    all_goals rfl
  · intro nft va ages user t hc
    simp [mintNFTCredential, hc]
  · intro nft va ages user t t1 hcnt
    by_cases hc : hasCredential nft user = true
    · simp [mintNFTCredential, hc]
    · have hc1 : hasCredential nft user = false := by simpa using hc
      simp only [mintNFTCredential, hc1, Bool.false_eq_true, if_false]
      cases hm : mintCredential nft va user (ages user) t with
      | error e => simp
      | ok q =>
        obtain ⟨tid, nft1⟩ := q
        have hshape := mintCredential_ok_shape hm
        have hcred : hasCredential nft1 user = true := by
          simp only [hasCredential, decide_eq_true_eq]
          have := hshape.2
          simp only at this
          omega
        simp [mintNFTCredential, hcred]

/-- Witness for C10: in a state where address 1 already holds token 1, a direct
mint fails and the internal path is a no-op; and from the fresh post-deployment
state, minting for address 1 and then repeating the internal path mints no
second token. -/
theorem c10_witness :
    exceptIsOk (mintCredential mintedNFTState 2 1 77 3000) = false ∧
    mintNFTCredential mintedNFTState 2 (fun _ => 77) 1 3000 = .ok (mintedNFTState, none) ∧
    (match mintNFTCredential freshNFTState 2 (fun _ => 77) 1 1000 with
     | .ok p => mintNFTCredential p.1 2 (fun _ => 77) 1 2000 = .ok (p.1, none)
     | .error _ => True) :=
  ⟨c10_single_credential.1 mintedNFTState 2 1 77 3000 (by decide),
   c10_single_credential.2.1 mintedNFTState 2 (fun _ => 77) 1 3000 (by decide),
   c10_single_credential.2.2 freshNFTState 2 (fun _ => 77) 1 1000 2000 (by decide)⟩
